import Mathlib

/-!
Verification of the ASMLab instruction interpreter (src/cpu.rs), the
operand parser fragment (src/parser.rs) and the encoder-adapter operand
checking (src/assembler.rs), as a shallow embedding.

Machine integers are modelled as `Nat` with explicit `% 2^64`
(resp. `% 2^32`, `% 2^128`) wherever the Rust `u64`/`u32`/`u128`
arithmetic wraps.  A Rust panic (out-of-bounds indexing or slicing,
shift-amount overflow) is modelled by `Option`: `none` is a panic.
-/

set_option maxHeartbeats 1600000

namespace ASMLab

/-- The 16 GPR tags of `parser.rs` (`enum Register`). -/
inductive Register where
  | rax | rbx | rcx | rdx | rsi | rdi | rbp | rsp
  | r8 | r9 | r10 | r11 | r12 | r13 | r14 | r15
  deriving DecidableEq, Repr

/-- The mnemonic tags of `parser.rs` (`enum InstructionType`). -/
inductive InstructionType where
  | mov | add | sub | and | or | xor
  | inc | dec | neg | not
  | shl | shr | rol | ror
  | push | pop
  | cmp | test
  | jmp | je | jne | jg | jge | jl | jle
  | call | ret
  | paddd
  | bsf
  | cmovne
  deriving DecidableEq, Repr

/-- Operands of `parser.rs` (`enum Operand`): a GPR, a signed 32-bit
immediate (stored as `Int`, range `[-2^31, 2^31)` where it matters),
or an XMM index (`u8`, stored as `Nat`). -/
inductive Operand where
  | register (r : Register)
  | immediate (n : Int)
  | xmmRegister (n : Nat)
  deriving DecidableEq, Repr

/-- `struct Instruction` of `parser.rs`. -/
structure Instruction where
  instruction_type : InstructionType
  operands : List Operand
  deriving DecidableEq, Repr

/-- `struct CPU` of `cpu.rs`.  `u64` fields are `Nat` kept below `2^64`
by the operations, `u16` fields are `Nat`, memory is a byte list,
`xmm: [u128; 16]` is a 16-element `Nat` list. -/
structure CPU where
  rax : Nat
  rbx : Nat
  rcx : Nat
  rdx : Nat
  rsi : Nat
  rdi : Nat
  rbp : Nat
  rsp : Nat
  r8 : Nat
  r9 : Nat
  r10 : Nat
  r11 : Nat
  r12 : Nat
  r13 : Nat
  r14 : Nat
  r15 : Nat
  rip : Nat
  rflags : Nat
  cs : Nat
  fs : Nat
  gs : Nat
  cf : Bool
  zf : Bool
  sf : Bool
  of : Bool
  memory : List Nat
  xmm : List Nat
  deriving DecidableEq, Repr

/-- `CPU::new` (`cpu.rs`), with the memory size as a parameter so that
concrete witnesses can use a small memory; the source uses `1024*1024`. -/
def CPU.new (memSize : Nat) : CPU :=
  { rax := 0, rbx := 0, rcx := 0, rdx := 0
    rsi := 0, rdi := 0, rbp := 0
    rsp := memSize - 8
    r8 := 0, r9 := 0, r10 := 0, r11 := 0
    r12 := 0, r13 := 0, r14 := 0, r15 := 0
    rip := 0
    rflags := 0x0002
    cs := 0, fs := 0, gs := 0
    cf := false, zf := false, sf := false, of := false
    memory := List.replicate memSize 0
    xmm := List.replicate 16 0 }

/-- The `Index<&Register>` impl of `cpu.rs`: read a GPR slot. -/
def CPU.getReg (s : CPU) : Register → Nat
  | .rax => s.rax
  | .rbx => s.rbx
  | .rcx => s.rcx
  | .rdx => s.rdx
  | .rsi => s.rsi
  | .rdi => s.rdi
  | .rbp => s.rbp
  | .rsp => s.rsp
  | .r8 => s.r8
  | .r9 => s.r9
  | .r10 => s.r10
  | .r11 => s.r11
  | .r12 => s.r12
  | .r13 => s.r13
  | .r14 => s.r14
  | .r15 => s.r15

/-- The `IndexMut<&Register>` impl of `cpu.rs`: write a GPR slot. -/
def CPU.setReg (s : CPU) (r : Register) (v : Nat) : CPU :=
  match r with
  | .rax => { s with rax := v }
  | .rbx => { s with rbx := v }
  | .rcx => { s with rcx := v }
  | .rdx => { s with rdx := v }
  | .rsi => { s with rsi := v }
  | .rdi => { s with rdi := v }
  | .rbp => { s with rbp := v }
  | .rsp => { s with rsp := v }
  | .r8 => { s with r8 := v }
  | .r9 => { s with r9 := v }
  | .r10 => { s with r10 := v }
  | .r11 => { s with r11 := v }
  | .r12 => { s with r12 := v }
  | .r13 => { s with r13 := v }
  | .r14 => { s with r14 := v }
  | .r15 => { s with r15 := v }

/-- Rust `imm as u64` for `imm: i32`: sign-extension to 64 bits,
i.e. the value of `imm` modulo `2^64`. -/
def i32ToU64 (imm : Int) : Nat := (imm % (2 ^ 64 : Int)).toNat

/-- Rust `u64::overflowing_add` (for arguments below `2^64`). -/
def overflowing_add (a b : Nat) : Nat × Bool :=
  ((a + b) % 2 ^ 64, decide (2 ^ 64 ≤ a + b))

/-- Rust `u64::overflowing_sub` (for arguments below `2^64`). -/
def overflowing_sub (a b : Nat) : Nat × Bool :=
  ((a + (2 ^ 64 - b)) % 2 ^ 64, decide (a < b))

/-- Rust `u64::rotate_left` (count masked modulo 64 by `rotate_left`). -/
def rotateLeft64 (v k : Nat) : Nat :=
  ((v <<< (k % 64)) ||| (v >>> (64 - k % 64))) % 2 ^ 64

/-- Rust `u64::rotate_right` (count masked modulo 64 by `rotate_right`). -/
def rotateRight64 (v k : Nat) : Nat :=
  ((v >>> (k % 64)) ||| (v <<< (64 - k % 64))) % 2 ^ 64

/-- `u64::from_le_bytes`: little-endian byte list to value. -/
def leBytesToNat (bs : List Nat) : Nat :=
  bs.foldr (fun b acc => b + 256 * acc) 0

/-- `u64::to_le_bytes`: value to its 8 little-endian bytes. -/
def natToLeBytes8 (v : Nat) : List Nat :=
  [v % 256, v / 256 % 256, v / 256 ^ 2 % 256, v / 256 ^ 3 % 256,
   v / 256 ^ 4 % 256, v / 256 ^ 5 % 256, v / 256 ^ 6 % 256, v / 256 ^ 7 % 256]

/-- `CPU::read_memory` (`cpu.rs`): 8-byte little-endian read;
the Rust slice `&memory[a..a+8]` panics (`none`) when out of range. -/
def CPU.read_memory (s : CPU) (addr : Nat) : Option Nat :=
  if addr + 8 ≤ s.memory.length then
    some (leBytesToNat ((s.memory.drop addr).take 8))
  else none

/-- `CPU::write_memory` (`cpu.rs`): 8-byte little-endian write;
the Rust slice `memory[a..a+8]` panics (`none`) when out of range. -/
def CPU.write_memory (s : CPU) (addr : Nat) (v : Nat) : Option CPU :=
  if addr + 8 ≤ s.memory.length then
    some { s with memory :=
      s.memory.take addr ++ natToLeBytes8 v ++ s.memory.drop (addr + 8) }
  else none

/-- `CPU::update_flags` (`cpu.rs`).  `sf` embeds `(result as i64) < 0`
(bit 63 set, for results below `2^64`); `cf` is the source's shortcut
`result < self[&Register::Rax]`. -/
def CPU.update_flags (s : CPU) (result : Nat) (overflow : Bool) : CPU :=
  let zfv := decide (result = 0)
  let sfv := decide (2 ^ 63 ≤ result)
  let cfv := decide (result < s.rax)
  { s with
    zf := zfv
    sf := sfv
    cf := cfv
    of := overflow
    rflags := cfv.toNat ||| (zfv.toNat <<< 6) ||| (sfv.toNat <<< 7) |||
              (overflow.toNat <<< 11) }

/-- `CPU::execute_mov`.  Rust indexes `operands[0]` and `operands[1]`
before pattern matching, so a short list panics (`none`). -/
def CPU.execute_mov (s : CPU) (i : Instruction) : Option CPU := do
  let op0 ← i.operands[0]?
  let op1 ← i.operands[1]?
  match op0, op1 with
  | .register dest, .immediate imm => pure (s.setReg dest (i32ToU64 imm))
  | .register dest, .register src => pure (s.setReg dest (s.getReg src))
  | _, _ => pure s

/-- `CPU::execute_add`: wrapping add, destination written before the
flag update (so `update_flags` sees the new RAX when dest = RAX). -/
def CPU.execute_add (s : CPU) (i : Instruction) : Option CPU := do
  let op0 ← i.operands[0]?
  let op1 ← i.operands[1]?
  match op0, op1 with
  | .register dest, .immediate imm =>
      let p := overflowing_add (s.getReg dest) (i32ToU64 imm)
      pure ((s.setReg dest p.1).update_flags p.1 p.2)
  | .register dest, .register src =>
      let p := overflowing_add (s.getReg dest) (s.getReg src)
      pure ((s.setReg dest p.1).update_flags p.1 p.2)
  | _, _ => pure s

/-- `CPU::execute_sub`. -/
def CPU.execute_sub (s : CPU) (i : Instruction) : Option CPU := do
  let op0 ← i.operands[0]?
  let op1 ← i.operands[1]?
  match op0, op1 with
  | .register dest, .immediate imm =>
      let p := overflowing_sub (s.getReg dest) (i32ToU64 imm)
      pure ((s.setReg dest p.1).update_flags p.1 p.2)
  | .register dest, .register src =>
      let p := overflowing_sub (s.getReg dest) (s.getReg src)
      pure ((s.setReg dest p.1).update_flags p.1 p.2)
  | _, _ => pure s

/-- `CPU::execute_and`. -/
def CPU.execute_and (s : CPU) (i : Instruction) : Option CPU := do
  let op0 ← i.operands[0]?
  let op1 ← i.operands[1]?
  match op0, op1 with
  | .register dest, .immediate imm =>
      let result := s.getReg dest &&& i32ToU64 imm
      pure ((s.setReg dest result).update_flags result false)
  | .register dest, .register src =>
      let result := s.getReg dest &&& s.getReg src
      pure ((s.setReg dest result).update_flags result false)
  | _, _ => pure s

/-- `CPU::execute_or`. -/
def CPU.execute_or (s : CPU) (i : Instruction) : Option CPU := do
  let op0 ← i.operands[0]?
  let op1 ← i.operands[1]?
  match op0, op1 with
  | .register dest, .immediate imm =>
      let result := s.getReg dest ||| i32ToU64 imm
      pure ((s.setReg dest result).update_flags result false)
  | .register dest, .register src =>
      let result := s.getReg dest ||| s.getReg src
      pure ((s.setReg dest result).update_flags result false)
  | _, _ => pure s

/-- `CPU::execute_xor`. -/
def CPU.execute_xor (s : CPU) (i : Instruction) : Option CPU := do
  let op0 ← i.operands[0]?
  let op1 ← i.operands[1]?
  match op0, op1 with
  | .register dest, .immediate imm =>
      let result := s.getReg dest ^^^ i32ToU64 imm
      pure ((s.setReg dest result).update_flags result false)
  | .register dest, .register src =>
      let result := s.getReg dest ^^^ s.getReg src
      pure ((s.setReg dest result).update_flags result false)
  | _, _ => pure s

/-- `CPU::execute_inc`. -/
def CPU.execute_inc (s : CPU) (i : Instruction) : Option CPU := do
  let op0 ← i.operands[0]?
  match op0 with
  | .register reg =>
      let p := overflowing_add (s.getReg reg) 1
      pure ((s.setReg reg p.1).update_flags p.1 p.2)
  | _ => pure s

/-- `CPU::execute_dec`. -/
def CPU.execute_dec (s : CPU) (i : Instruction) : Option CPU := do
  let op0 ← i.operands[0]?
  match op0 with
  | .register reg =>
      let p := overflowing_sub (s.getReg reg) 1
      pure ((s.setReg reg p.1).update_flags p.1 p.2)
  | _ => pure s

/-- `CPU::execute_neg`: `(0u64).overflowing_sub(self[reg])`. -/
def CPU.execute_neg (s : CPU) (i : Instruction) : Option CPU := do
  let op0 ← i.operands[0]?
  match op0 with
  | .register reg =>
      let p := overflowing_sub 0 (s.getReg reg)
      pure ((s.setReg reg p.1).update_flags p.1 p.2)
  | _ => pure s

/-- `CPU::execute_not`: `!x` on `u64` is xor with the all-ones mask. -/
def CPU.execute_not (s : CPU) (i : Instruction) : Option CPU := do
  let op0 ← i.operands[0]?
  match op0 with
  | .register reg =>
      let result := s.getReg reg ^^^ (2 ^ 64 - 1)
      pure ((s.setReg reg result).update_flags result false)
  | _ => pure s

/-- `CPU::execute_shl`: `self[reg] << shift` with `shift: i32`; a
negative count or a count ≥ 64 is a Rust shift-overflow panic (`none`). -/
def CPU.execute_shl (s : CPU) (i : Instruction) : Option CPU := do
  let op0 ← i.operands[0]?
  let op1 ← i.operands[1]?
  match op0, op1 with
  | .register reg, .immediate shift =>
      if 0 ≤ shift ∧ shift < 64 then
        let result := (s.getReg reg <<< shift.toNat) % 2 ^ 64
        pure ((s.setReg reg result).update_flags result false)
      else none
  | _, _ => pure s

/-- `CPU::execute_shr`: as `execute_shl` with a logical right shift. -/
def CPU.execute_shr (s : CPU) (i : Instruction) : Option CPU := do
  let op0 ← i.operands[0]?
  let op1 ← i.operands[1]?
  match op0, op1 with
  | .register reg, .immediate shift =>
      if 0 ≤ shift ∧ shift < 64 then
        let result := s.getReg reg >>> shift.toNat
        pure ((s.setReg reg result).update_flags result false)
      else none
  | _, _ => pure s

/-- `CPU::execute_rol`: `rotate_left(*shift as u32)` never panics; the
`i32 → u32` cast is value modulo `2^32`. -/
def CPU.execute_rol (s : CPU) (i : Instruction) : Option CPU := do
  let op0 ← i.operands[0]?
  let op1 ← i.operands[1]?
  match op0, op1 with
  | .register reg, .immediate shift =>
      let result := rotateLeft64 (s.getReg reg) (shift % (2 ^ 32 : Int)).toNat
      pure ((s.setReg reg result).update_flags result false)
  | _, _ => pure s

/-- `CPU::execute_ror`. -/
def CPU.execute_ror (s : CPU) (i : Instruction) : Option CPU := do
  let op0 ← i.operands[0]?
  let op1 ← i.operands[1]?
  match op0, op1 with
  | .register reg, .immediate shift =>
      let result := rotateRight64 (s.getReg reg) (shift % (2 ^ 32 : Int)).toNat
      pure ((s.setReg reg result).update_flags result false)
  | _, _ => pure s

/-- `CPU::execute_push`: the RSP decrement and the store are both
inside the `if let`, so a non-register operand is a silent no-op. -/
def CPU.execute_push (s : CPU) (i : Instruction) : Option CPU := do
  let op0 ← i.operands[0]?
  match op0 with
  | .register reg =>
      let rsp' := (s.rsp + (2 ^ 64 - 8)) % 2 ^ 64
      let s₁ := { s with rsp := rsp' }
      s₁.write_memory rsp' (s.getReg reg)
  | _ => pure s

/-- `CPU::execute_pop`. -/
def CPU.execute_pop (s : CPU) (i : Instruction) : Option CPU := do
  let op0 ← i.operands[0]?
  match op0 with
  | .register reg =>
      let v ← s.read_memory s.rsp
      pure { s.setReg reg v with rsp := ((s.setReg reg v).rsp + 8) % 2 ^ 64 }
  | _ => pure s

/-- `CPU::execute_cmp`: subtraction flags, result discarded. -/
def CPU.execute_cmp (s : CPU) (i : Instruction) : Option CPU := do
  let op0 ← i.operands[0]?
  let op1 ← i.operands[1]?
  match op0, op1 with
  | .register reg, .immediate imm =>
      let p := overflowing_sub (s.getReg reg) (i32ToU64 imm)
      pure (s.update_flags p.1 p.2)
  | .register reg1, .register reg2 =>
      let p := overflowing_sub (s.getReg reg1) (s.getReg reg2)
      pure (s.update_flags p.1 p.2)
  | _, _ => pure s

/-- `CPU::execute_test`: bitwise-and flags, result discarded. -/
def CPU.execute_test (s : CPU) (i : Instruction) : Option CPU := do
  let op0 ← i.operands[0]?
  let op1 ← i.operands[1]?
  match op0, op1 with
  | .register reg, .immediate imm =>
      let result := s.getReg reg &&& i32ToU64 imm
      pure (s.update_flags result false)
  | .register reg1, .register reg2 =>
      let result := s.getReg reg1 &&& s.getReg reg2
      pure (s.update_flags result false)
  | _, _ => pure s

/-- `CPU::execute_jmp`: `rip = target as u64 - 1` (wrapping). -/
def CPU.execute_jmp (s : CPU) (i : Instruction) : Option CPU := do
  let op0 ← i.operands[0]?
  match op0 with
  | .immediate target =>
      pure { s with rip := (i32ToU64 target + (2 ^ 64 - 1)) % 2 ^ 64 }
  | _ => pure s

/-- `CPU::execute_je`. -/
def CPU.execute_je (s : CPU) (i : Instruction) : Option CPU :=
  if s.zf then s.execute_jmp i else some s

/-- `CPU::execute_jne`. -/
def CPU.execute_jne (s : CPU) (i : Instruction) : Option CPU :=
  if !s.zf then s.execute_jmp i else some s

/-- `CPU::execute_jg`. -/
def CPU.execute_jg (s : CPU) (i : Instruction) : Option CPU :=
  if !s.zf && s.sf == s.of then s.execute_jmp i else some s

/-- `CPU::execute_jge`. -/
def CPU.execute_jge (s : CPU) (i : Instruction) : Option CPU :=
  if s.sf == s.of then s.execute_jmp i else some s

/-- `CPU::execute_jl`. -/
def CPU.execute_jl (s : CPU) (i : Instruction) : Option CPU :=
  if s.sf != s.of then s.execute_jmp i else some s

/-- `CPU::execute_jle`. -/
def CPU.execute_jle (s : CPU) (i : Instruction) : Option CPU :=
  if s.zf || s.sf != s.of then s.execute_jmp i else some s

/-- `CPU::execute_call`: RSP moves and the return address is written
before the operand shape is examined by `execute_jmp`. -/
def CPU.execute_call (s : CPU) (i : Instruction) : Option CPU := do
  let rsp' := (s.rsp + (2 ^ 64 - 8)) % 2 ^ 64
  let s₁ := { s with rsp := rsp' }
  let s₂ ← s₁.write_memory rsp' ((s.rip + 1) % 2 ^ 64)
  s₂.execute_jmp i

/-- `CPU::execute_ret`: `rip = read8[rsp] - 1` (wrapping), `rsp += 8`. -/
def CPU.execute_ret (s : CPU) (_i : Instruction) : Option CPU := do
  let v ← s.read_memory s.rsp
  pure { s with rip := (v + (2 ^ 64 - 1)) % 2 ^ 64, rsp := (s.rsp + 8) % 2 ^ 64 }

/-- The `while (source_value & (1 << index)) == 0` loop of
`CPU::execute_bsf`.  The fuel counts the remaining legal shift amounts;
reaching `index = 64` would be a Rust shift-overflow panic (`none`). -/
def bsfLoop (v : Nat) : Nat → Nat → Option Nat
  | 0, _ => none
  | fuel + 1, index =>
      if v &&& (1 <<< index) = 0 then bsfLoop v fuel (index + 1) else some index

/-- `CPU::execute_bsf`. -/
def CPU.execute_bsf (s : CPU) (i : Instruction) : Option CPU := do
  let op0 ← i.operands[0]?
  let op1 ← i.operands[1]?
  match op0, op1 with
  | .register dest, .register src =>
      let source_value := s.getReg src
      if source_value = 0 then
        pure { s with zf := true }
      else do
        let index ← bsfLoop source_value 64 0
        pure (({ s with zf := false }).setReg dest index)
  | _, _ => pure s

/-- `CPU::execute_cmovne`: the ZF test happens before any operand access. -/
def CPU.execute_cmovne (s : CPU) (i : Instruction) : Option CPU :=
  if !s.zf then do
    let op0 ← i.operands[0]?
    let op1 ← i.operands[1]?
    match op0, op1 with
    | .register dest, .register src => pure (s.setReg dest (s.getReg src))
    | _, _ => pure s
  else pure s

/-- The packed 32-bit lane combine of `CPU::execute_paddd`: the
`(0..4).map(...).fold(0, |acc, x| acc | x)` expression. -/
def paddd128 (a b : Nat) : Nat :=
  ((List.range 4).map (fun i =>
      ((((a >>> (i * 32)) &&& 0xFFFFFFFF) + ((b >>> (i * 32)) &&& 0xFFFFFFFF))
        &&& 0xFFFFFFFF) <<< (i * 32))).foldl (fun acc x => acc ||| x) 0

/-- `CPU::execute_paddd`: `xmm[dest as usize]` panics (`none`) when the
u8 index is out of the 16-lane array. -/
def CPU.execute_paddd (s : CPU) (i : Instruction) : Option CPU := do
  let op0 ← i.operands[0]?
  let op1 ← i.operands[1]?
  match op0, op1 with
  | .xmmRegister dest, .xmmRegister src =>
      let dest_val ← s.xmm[dest]?
      let src_val ← s.xmm[src]?
      pure { s with xmm := s.xmm.set dest (paddd128 dest_val src_val) }
  | _, _ => pure s

/-- The `self.rip += 1` (wrapping) at the end of `CPU::execute`. -/
def bumpRip (s : CPU) : CPU := { s with rip := (s.rip + 1) % 2 ^ 64 }

/-- `CPU::execute` (`cpu.rs`): dispatch on the kind, then the
unconditional `self.rip += 1` (wrapping).  A panic in a handler
(`none`) aborts before the RIP increment, as in Rust. -/
def CPU.execute (s : CPU) (i : Instruction) : Option CPU := do
  let s' ←
    match i.instruction_type with
    | .mov => s.execute_mov i
    | .add => s.execute_add i
    | .sub => s.execute_sub i
    | .and => s.execute_and i
    | .or => s.execute_or i
    | .xor => s.execute_xor i
    | .inc => s.execute_inc i
    | .dec => s.execute_dec i
    | .neg => s.execute_neg i
    | .not => s.execute_not i
    | .shl => s.execute_shl i
    | .shr => s.execute_shr i
    | .rol => s.execute_rol i
    | .ror => s.execute_ror i
    | .push => s.execute_push i
    | .pop => s.execute_pop i
    | .cmp => s.execute_cmp i
    | .test => s.execute_test i
    | .jmp => s.execute_jmp i
    | .je => s.execute_je i
    | .jne => s.execute_jne i
    | .jg => s.execute_jg i
    | .jge => s.execute_jge i
    | .jl => s.execute_jl i
    | .jle => s.execute_jle i
    | .call => s.execute_call i
    | .ret => s.execute_ret i
    | .paddd => s.execute_paddd i
    | .bsf => s.execute_bsf i
    | .cmovne => s.execute_cmovne i
  pure (bumpRip s')

/-! ### The `xmm_register` parser fragment (`parser.rs`) -/

/-- nom `tag` on character lists: strip the literal, or fail. -/
def tag (t input : List Char) : Option (List Char) :=
  if t.isPrefixOf input then some (input.drop t.length) else none

/-- nom `digit1`: the longest nonempty run of decimal digits; fails
when the input does not start with a digit.  Returns (rest, digits). -/
def digit1 (input : List Char) : Option (List Char × List Char) :=
  if (input.takeWhile Char.isDigit).isEmpty then none
  else some (input.dropWhile Char.isDigit, input.takeWhile Char.isDigit)

/-- Decimal value of a digit run (the `str::parse` accumulator). -/
def digitsToNat (ds : List Char) : Nat :=
  ds.foldl (fun acc c => acc * 10 + (c.toNat - 48)) 0

/-- `str::parse::<u8>` on a nonempty all-digit string: the decimal
value when it fits in `u8` (≤ 255), otherwise an overflow error. -/
def parseU8 (ds : List Char) : Option Nat :=
  if digitsToNat ds ≤ 255 then some (digitsToNat ds) else none

/-- `xmm_register` (`parser.rs`): `tag("xmm")` followed by
`map_res(digit1, |s| s.parse::<u8>())`. -/
def xmm_register (input : List Char) : Option (List Char × Nat) := do
  let rest ← tag ['x', 'm', 'm'] input
  let p ← digit1 rest
  let v ← parseU8 p.2
  pure (p.1, v)

/-! ### The encoder-adapter operand checking (`assembler.rs`)

`none` is a Rust panic (out-of-bounds operand indexing), `some (.error e)`
is `Err(e)`, and `some (.ok ())` means the operand checks passed and the
third-party iced-x86 encoder calls are reached; the encoder library
itself lives outside this repository and is abstracted as success. -/

/-- See the section comment above. -/
abbrev AsmResult := Option (Except String Unit)

/-- Common body of `assemble_add`/`assemble_sub`/`assemble_and`/
`assemble_or`/`assemble_xor`/`assemble_cmp`/`assemble_test`
(`assembler.rs`): `match (&ops[0], &ops[1])` with no length pre-check,
so a short operand list panics. -/
def assembleBinary2 (name : String) (i : Instruction) : AsmResult := do
  let op0 ← i.operands[0]?
  let op1 ← i.operands[1]?
  match op0, op1 with
  | .register _, .immediate _ => pure (.ok ())
  | .register _, .register _ => pure (.ok ())
  | _, _ => pure (.error ("Invalid operands for " ++ name ++ " instruction"))

/-- Common body of `assemble_inc`/`assemble_dec`/`assemble_neg`/
`assemble_not`/`assemble_push`/`assemble_pop`: `if let` on `ops[0]`. -/
def assembleUnaryReg (name : String) (i : Instruction) : AsmResult := do
  let op0 ← i.operands[0]?
  match op0 with
  | .register _ => pure (.ok ())
  | _ => pure (.error ("Invalid operand for " ++ name ++ " instruction"))

/-- Common body of `assemble_shl`/`assemble_shr`/`assemble_rol`/
`assemble_ror`: `if let (Register, Immediate) = (&ops[0], &ops[1])`. -/
def assembleShiftRegImm (name : String) (i : Instruction) : AsmResult := do
  let op0 ← i.operands[0]?
  let op1 ← i.operands[1]?
  match op0, op1 with
  | .register _, .immediate _ => pure (.ok ())
  | _, _ => pure (.error ("Invalid operands for " ++ name ++ " instruction"))

/-- Common body of `assemble_jmp`/`assemble_je`/.../`assemble_call`:
`if let Immediate = ops[0]`. -/
def assembleJumpImm (name : String) (i : Instruction) : AsmResult := do
  let op0 ← i.operands[0]?
  match op0 with
  | .immediate _ => pure (.ok ())
  | _ => pure (.error ("Invalid operand for " ++ name ++ " instruction"))

/-- `assemble_mov` (`assembler.rs`): unlike the other binary forms it
checks the operand count before indexing. -/
def assemble_mov (i : Instruction) : AsmResult :=
  if i.operands.length ≠ 2 then
    pure (.error "MOV instruction requires exactly two operands")
  else assembleBinary2 "mov" i

/-- `assemble_add` (`assembler.rs`): no operand-count check. -/
def assemble_add (i : Instruction) : AsmResult := assembleBinary2 "add" i

/-- `assemble_sub` (`assembler.rs`). -/
def assemble_sub (i : Instruction) : AsmResult := assembleBinary2 "sub" i

/-- `assemble_and` (`assembler.rs`). -/
def assemble_and (i : Instruction) : AsmResult := assembleBinary2 "and" i

/-- `assemble_or` (`assembler.rs`). -/
def assemble_or (i : Instruction) : AsmResult := assembleBinary2 "or" i

/-- `assemble_xor` (`assembler.rs`). -/
def assemble_xor (i : Instruction) : AsmResult := assembleBinary2 "xor" i

/-- `assemble_cmp` (`assembler.rs`). -/
def assemble_cmp (i : Instruction) : AsmResult := assembleBinary2 "cmp" i

/-- `assemble_test` (`assembler.rs`). -/
def assemble_test (i : Instruction) : AsmResult := assembleBinary2 "test" i

/-- `xmm_index_to_register` (`assembler.rs`): defined for 0..15 only;
the tag is modelled by the index itself. -/
def xmm_index_to_register (index : Nat) : Option Nat :=
  if index ≤ 15 then some index else none

/-- `assemble_paddd` (`assembler.rs`): operand-count check, then the
XMM index range checks. -/
def assemble_paddd (i : Instruction) : AsmResult :=
  if i.operands.length ≠ 2 then
    pure (.error "PADDD instruction requires exactly two operands")
  else do
    let op0 ← i.operands[0]?
    let op1 ← i.operands[1]?
    match op0, op1 with
    | .xmmRegister dest, .xmmRegister src =>
        match xmm_index_to_register dest with
        | none => pure (.error "Invalid destination XMM register")
        | some _ =>
            match xmm_index_to_register src with
            | none => pure (.error "Invalid source XMM register")
            | some _ => pure (.ok ())
    | _, _ => pure (.error "Invalid operands for paddd instruction")

/-- `assemble_bsf` (`assembler.rs`): operand-count check, then
(GPR, GPR). -/
def assemble_bsf (i : Instruction) : AsmResult :=
  if i.operands.length ≠ 2 then
    pure (.error "BSF instruction requires exactly two operands")
  else do
    let op0 ← i.operands[0]?
    let op1 ← i.operands[1]?
    match op0, op1 with
    | .register _, .register _ => pure (.ok ())
    | _, _ => pure (.error "Invalid operands for bsf instruction")

/-- `assemble_cmovne` (`assembler.rs`). -/
def assemble_cmovne (i : Instruction) : AsmResult :=
  if i.operands.length ≠ 2 then
    pure (.error "CMOVNE instruction requires exactly two operands")
  else do
    let op0 ← i.operands[0]?
    let op1 ← i.operands[1]?
    match op0, op1 with
    | .register _, .register _ => pure (.ok ())
    | _, _ => pure (.error "Invalid operands for cmovne instruction")

/-- `assemble_instruction` (`assembler.rs`): dispatch on the kind;
`assemble_ret` ignores its operands. -/
def assemble_instruction (i : Instruction) : AsmResult :=
  match i.instruction_type with
  | .mov => assemble_mov i
  | .add => assemble_add i
  | .sub => assemble_sub i
  | .and => assemble_and i
  | .or => assemble_or i
  | .xor => assemble_xor i
  | .inc => assembleUnaryReg "inc" i
  | .dec => assembleUnaryReg "dec" i
  | .neg => assembleUnaryReg "neg" i
  | .not => assembleUnaryReg "not" i
  | .shl => assembleShiftRegImm "shl" i
  | .shr => assembleShiftRegImm "shr" i
  | .rol => assembleShiftRegImm "rol" i
  | .ror => assembleShiftRegImm "ror" i
  | .push => assembleUnaryReg "push" i
  | .pop => assembleUnaryReg "pop" i
  | .cmp => assemble_cmp i
  | .test => assemble_test i
  | .jmp => assembleJumpImm "jmp" i
  | .je => assembleJumpImm "je" i
  | .jne => assembleJumpImm "jne" i
  | .jg => assembleJumpImm "jg" i
  | .jge => assembleJumpImm "jge" i
  | .jl => assembleJumpImm "jl" i
  | .jle => assembleJumpImm "jle" i
  | .call => assembleJumpImm "call" i
  | .ret => pure (.ok ())
  | .paddd => assemble_paddd i
  | .bsf => assemble_bsf i
  | .cmovne => assemble_cmovne i

/-! ### Spec-side definitions (§4.2 table, §4.5 branch table) -/

/-- Modelled from the spec: the §4.2 arity/operand-shape table, as a
decidable predicate on (kind, operand list). -/
def inTable (k : InstructionType) (ops : List Operand) : Bool :=
  match k with
  | .mov | .add | .sub | .and | .or | .xor | .cmp | .test =>
      match ops with
      | [.register _, .immediate _] | [.register _, .register _] => true
      | _ => false
  | .inc | .dec | .neg | .not | .push | .pop =>
      match ops with
      | [.register _] => true
      | _ => false
  | .shl | .shr | .rol | .ror =>
      match ops with
      | [.register _, .immediate _] => true
      | _ => false
  | .jmp | .je | .jne | .jg | .jge | .jl | .jle | .call =>
      match ops with
      | [.immediate _] => true
      | _ => false
  | .ret => ops.isEmpty
  | .paddd =>
      match ops with
      | [.xmmRegister _, .xmmRegister _] => true
      | _ => false
  | .bsf | .cmovne =>
      match ops with
      | [.register _, .register _] => true
      | _ => false

/-- Modelled from the spec: the §4.5 branch-condition table for the
conditional jumps, a function of ZF/SF/OF only (CF does not appear). -/
def specBranchTaken (k : InstructionType) (zfv sfv ofv : Bool) : Bool :=
  match k with
  | .je => zfv
  | .jne => !zfv
  | .jg => !zfv && (sfv == ofv)
  | .jge => sfv == ofv
  | .jl => sfv != ofv
  | .jle => zfv || (sfv != ofv)
  | _ => false

/-- The conditional-jump kinds. -/
def jccKinds : List InstructionType := [.je, .jne, .jg, .jge, .jl, .jle]

/-- The kinds whose handlers call `CPU::update_flags`. -/
def flagKinds : List InstructionType :=
  [.add, .sub, .and, .or, .xor, .inc, .dec, .neg, .not,
   .shl, .shr, .rol, .ror, .cmp, .test]

/-- The k-th 32-bit lane of a 128-bit value. -/
def lane32 (v k : Nat) : Nat := (v >>> (k * 32)) &&& 0xFFFFFFFF

/-- A small concrete state for witnesses and counterexamples: 32 bytes
of memory, RSP = 16, RIP = 7, XMM lane 0 holding 1. -/
def testCPU : CPU :=
  { CPU.new 32 with rsp := 16, rip := 7, xmm := (List.replicate 16 0).set 0 1 }

/-! ### Helper lemmas about the state operations -/

theorem getReg_setReg_self (s : CPU) (r : Register) (v : Nat) :
    (s.setReg r v).getReg r = v := by
  cases r <;> rfl

theorem getReg_setReg_ne (s : CPU) (r r' : Register) (v : Nat) (h : r' ≠ r) :
    (s.setReg r v).getReg r' = s.getReg r' := by
  cases r <;> cases r' <;> first | rfl | exact absurd rfl h

theorem setReg_frame (s : CPU) (r : Register) (v : Nat) :
    (s.setReg r v).rip = s.rip ∧ (s.setReg r v).rflags = s.rflags ∧
    (s.setReg r v).cs = s.cs ∧ (s.setReg r v).fs = s.fs ∧
    (s.setReg r v).gs = s.gs ∧ (s.setReg r v).cf = s.cf ∧
    (s.setReg r v).zf = s.zf ∧ (s.setReg r v).sf = s.sf ∧
    (s.setReg r v).of = s.of ∧ (s.setReg r v).memory = s.memory ∧
    (s.setReg r v).xmm = s.xmm := by
  cases r <;> exact ⟨rfl, rfl, rfl, rfl, rfl, rfl, rfl, rfl, rfl, rfl, rfl⟩

theorem bumpRip_getReg (s : CPU) (r : Register) :
    (bumpRip s).getReg r = s.getReg r := by
  cases r <;> rfl

theorem getReg_setZf (s : CPU) (b : Bool) (r : Register) :
    ({ s with zf := b } : CPU).getReg r = s.getReg r := by
  cases r <;> rfl

theorem two_pow_64_nat : (2 : Nat) ^ 64 = 18446744073709551616 := by norm_num

theorem two_pow_64_int : (2 : Int) ^ 64 = 18446744073709551616 := by norm_num

theorem i32ToU64_lt (imm : Int) : i32ToU64 imm < 2 ^ 64 := by
  unfold i32ToU64
  have h1 : imm % (2 ^ 64 : Int) < 2 ^ 64 :=
    Int.emod_lt_of_pos imm (by norm_num)
  have h2 : 0 ≤ imm % (2 ^ 64 : Int) := Int.emod_nonneg imm (by norm_num)
  rw [two_pow_64_int] at h1 h2
  rw [two_pow_64_nat]
  omega

theorem i32ToU64_signExt (imm : Int) (h1 : -2 ^ 31 ≤ imm) (h2 : imm < 2 ^ 31) :
    i32ToU64 imm = if 0 ≤ imm then imm.toNat else (2 ^ 64 + imm).toNat := by
  unfold i32ToU64
  have e31 : (2 : Int) ^ 31 = 2147483648 := by norm_num
  rw [e31] at h1 h2
  rw [two_pow_64_int]
  split <;> omega

theorem wrap_pred_succ {v : Nat} (h : v < 2 ^ 64) :
    ((v + (2 ^ 64 - 1)) % 2 ^ 64 + 1) % 2 ^ 64 = v := by
  rw [two_pow_64_nat] at *
  omega

/-- Every flag-updating kind, executed on a table-conformant operand
shape, either panics (shift-amount overflow in SHL/SHR) or ends as the
RIP bump of a `CPU::update_flags` application. -/
theorem flagKind_route (s : CPU) (k : InstructionType) (ops : List Operand)
    (hk : k ∈ flagKinds) (ht : inTable k ops = true) :
    CPU.execute s ⟨k, ops⟩ = none ∨
    ∃ base result overflow,
      CPU.execute s ⟨k, ops⟩ = some (bumpRip (CPU.update_flags base result overflow)) := by
  fin_cases hk <;>
    rcases ops with _ | ⟨op0, _ | ⟨op1, _ | ⟨op2, tl⟩⟩⟩ <;>
    first
      | (simp [inTable] at ht; done)
      | (cases op0 <;>
          first
            | (simp [inTable] at ht; done)
            | exact Or.inr ⟨_, _, _, rfl⟩)
      | (cases op0 <;> cases op1 <;>
          first
            | (simp [inTable] at ht; done)
            | exact Or.inr ⟨_, _, _, rfl⟩
            | (rename_i a amt
               by_cases hc : 0 ≤ amt ∧ amt < 64
               · refine Or.inr ⟨s.setReg a ((s.getReg a <<< amt.toNat) % 2 ^ 64),
                   (s.getReg a <<< amt.toNat) % 2 ^ 64, false, ?_⟩
                 simp [CPU.execute, CPU.execute_shl, hc]
               · exact Or.inl (by simp [CPU.execute, CPU.execute_shl, hc]))
            | (rename_i a amt
               by_cases hc : 0 ≤ amt ∧ amt < 64
               · refine Or.inr ⟨s.setReg a (s.getReg a >>> amt.toNat),
                   s.getReg a >>> amt.toNat, false, ?_⟩
                 simp [CPU.execute, CPU.execute_shr, hc]
               · exact Or.inl (by simp [CPU.execute, CPU.execute_shr, hc])))

/-! ### C2: the CF shortcut in the shared flag updater -/

theorem update_flags_getReg (s : CPU) (result : Nat) (o : Bool) (r : Register) :
    (s.update_flags result o).getReg r = s.getReg r := by
  cases r <;> rfl

theorem cf_of_writeback (base : CPU) (dest : Register) (result : Nat) (o : Bool) :
    (bumpRip ((base.setReg dest result).update_flags result o)).cf =
      decide ((bumpRip ((base.setReg dest result).update_flags result o)).getReg dest <
              (bumpRip ((base.setReg dest result).update_flags result o)).rax) := by
  rw [bumpRip_getReg, update_flags_getReg, getReg_setReg_self]
  rfl

theorem cf_of_writeback_rax (base : CPU) (result : Nat) (o : Bool) :
    (bumpRip ((base.setReg .rax result).update_flags result o)).cf = false := by
  show decide (result < result) = false
  simp

/-- C2: for every flag-updating kind (ADD, SUB, AND, OR, XOR, INC,
DEC, NEG, NOT, SHL, SHR, ROL, ROR, CMP, TEST) executed on a
table-conformant shape, the CF left by the shared flag updater is
exactly `result < GPR[RAX]`, where RAX is its value at update time —
i.e. after the destination write, so `s'.rax` — and `result` is the
64-bit value the handler passes to `CPU::update_flags`: the final
destination value for the writeback kinds, and the discarded
subtraction/bitwise-and result for CMP/TEST.  The comparison has the
same `result < RAX` form for every kind and operand list, and as a
consequence of the at-update-time read, any of these instructions
whose destination register is RAX itself always leaves CF = false. -/
theorem C2_cf_shortcut (s s' : CPU) (k : InstructionType) (ops : List Operand)
    (hk : k ∈ flagKinds) (ht : inTable k ops = true)
    (he : CPU.execute s ⟨k, ops⟩ = some s') :
    (s'.cf = decide
      ((match k, ops with
        | .cmp, [.register r1, .immediate n] =>
            (overflowing_sub (s.getReg r1) (i32ToU64 n)).1
        | .cmp, [.register r1, .register r2] =>
            (overflowing_sub (s.getReg r1) (s.getReg r2)).1
        | .test, [.register r1, .immediate n] => s.getReg r1 &&& i32ToU64 n
        | .test, [.register r1, .register r2] => s.getReg r1 &&& s.getReg r2
        | _, .register dest :: _ => s'.getReg dest
        | _, _ => 0) < s'.rax)) ∧
    (∀ rest, ops = .register .rax :: rest → k ≠ .cmp → k ≠ .test →
      s'.cf = false) := by
  fin_cases hk <;>
    rcases ops with _ | ⟨op0, _ | ⟨op1, _ | ⟨op2, tl⟩⟩⟩ <;>
    first
      | (simp [inTable] at ht; done)
      | (cases op0 <;>
          first
            | (simp [inTable] at ht; done)
            | (obtain rfl := Option.some.inj he
               refine ⟨cf_of_writeback _ _ _ _, ?_⟩
               intro rest heq hc1 hc2
               injection heq with h1 h2
               injection h1 with h3
               subst h3
               exact cf_of_writeback_rax _ _ _))
      | (cases op0 <;> cases op1 <;>
          first
            | (simp [inTable] at ht; done)
            | (obtain rfl := Option.some.inj he
               refine ⟨cf_of_writeback _ _ _ _, ?_⟩
               intro rest heq hc1 hc2
               injection heq with h1 h2
               injection h1 with h3
               subst h3
               exact cf_of_writeback_rax _ _ _)
            | (obtain rfl := Option.some.inj he
               refine ⟨rfl, ?_⟩
               intro rest heq hc1 hc2
               first
                 | exact absurd rfl hc1
                 | exact absurd rfl hc2)
            | (rename_i dest amt
               by_cases hc : 0 ≤ amt ∧ amt < 64
               · have hx : CPU.execute s ⟨.shl, [.register dest, .immediate amt]⟩ =
                     some (bumpRip ((s.setReg dest
                       ((s.getReg dest <<< amt.toNat) % 2 ^ 64)).update_flags
                       ((s.getReg dest <<< amt.toNat) % 2 ^ 64) false)) := by
                   simp [CPU.execute, CPU.execute_shl, hc]
                 rw [hx] at he
                 obtain rfl := Option.some.inj he
                 refine ⟨cf_of_writeback _ _ _ _, ?_⟩
                 intro rest heq hc1 hc2
                 injection heq with h1 h2
                 injection h1 with h3
                 subst h3
                 exact cf_of_writeback_rax _ _ _
               · have hx : CPU.execute s ⟨.shl, [.register dest, .immediate amt]⟩ =
                     none := by
                   simp [CPU.execute, CPU.execute_shl, hc]
                 rw [hx] at he
                 simp at he)
            | (rename_i dest amt
               by_cases hc : 0 ≤ amt ∧ amt < 64
               · have hx : CPU.execute s ⟨.shr, [.register dest, .immediate amt]⟩ =
                     some (bumpRip ((s.setReg dest
                       (s.getReg dest >>> amt.toNat)).update_flags
                       (s.getReg dest >>> amt.toNat) false)) := by
                   simp [CPU.execute, CPU.execute_shr, hc]
                 rw [hx] at he
                 obtain rfl := Option.some.inj he
                 refine ⟨cf_of_writeback _ _ _ _, ?_⟩
                 intro rest heq hc1 hc2
                 injection heq with h1 h2
                 injection h1 with h3
                 subst h3
                 exact cf_of_writeback_rax _ _ _
               · have hx : CPU.execute s ⟨.shr, [.register dest, .immediate amt]⟩ =
                     none := by
                   simp [CPU.execute, CPU.execute_shr, hc]
                 rw [hx] at he
                 simp at he))

/-- Result state of `add rax, 1` from a fresh CPU, for the C2 witness. -/
def c2wS : CPU := bumpRip (((CPU.new 32).setReg .rax 1).update_flags 1 false)

/-- Witness for C2: `add rax, 1` writes RAX before the flag update, so
CF compares the result against itself and comes out false. -/
theorem C2_witness :
    (InstructionType.add ∈ flagKinds) ∧
    inTable .add [.register .rax, .immediate 1] = true ∧
    CPU.execute (CPU.new 32) ⟨.add, [.register .rax, .immediate 1]⟩ = some c2wS ∧
    c2wS.cf = decide (c2wS.getReg .rax < c2wS.rax) ∧
    c2wS.cf = false :=
  ⟨by decide, by decide, by decide,
   (C2_cf_shortcut (CPU.new 32) c2wS .add [.register .rax, .immediate 1]
      (by decide) (by decide) (by decide)).1,
   (C2_cf_shortcut (CPU.new 32) c2wS .add [.register .rax, .immediate 1]
      (by decide) (by decide) (by decide)).2 [.immediate 1] rfl
      (by decide) (by decide)⟩

/-! ### C6: MOV totality and frame -/

/-- C6: `MOV r, imm` writes the 64-bit sign-extension of the i32
immediate into GPR[r]; every other state component except GPR[r] and
RIP is unchanged, and RIP advances by 1 (wrapping). -/
theorem C6_mov_totality (s : CPU) (r : Register) (imm : Int)
    (h1 : -2 ^ 31 ≤ imm) (h2 : imm < 2 ^ 31) :
    ∃ s', CPU.execute s ⟨.mov, [.register r, .immediate imm]⟩ = some s' ∧
      s'.getReg r = (if 0 ≤ imm then imm.toNat else (2 ^ 64 + imm).toNat) ∧
      (∀ r', r' ≠ r → s'.getReg r' = s.getReg r') ∧
      s'.cf = s.cf ∧ s'.zf = s.zf ∧ s'.sf = s.sf ∧ s'.of = s.of ∧
      s'.rflags = s.rflags ∧ s'.memory = s.memory ∧ s'.xmm = s.xmm ∧
      s'.cs = s.cs ∧ s'.fs = s.fs ∧ s'.gs = s.gs ∧
      s'.rip = (s.rip + 1) % 2 ^ 64 := by
  obtain ⟨hrip, hrfl, hcs, hfs, hgs, hcf, hzf, hsf, hof, hmem, hxmm⟩ :=
    setReg_frame s r (i32ToU64 imm)
  refine ⟨bumpRip (s.setReg r (i32ToU64 imm)), rfl, ?_, ?_, hcf, hzf, hsf, hof,
          hrfl, hmem, hxmm, hcs, hfs, hgs, ?_⟩
  · rw [bumpRip_getReg, getReg_setReg_self]
    exact i32ToU64_signExt imm h1 h2
  · intro r' hne
    rw [bumpRip_getReg, getReg_setReg_ne s r r' _ hne]
  · show ((s.setReg r (i32ToU64 imm)).rip + 1) % 2 ^ 64 = (s.rip + 1) % 2 ^ 64
    rw [hrip]

/-- Witness for C6 at a concrete input. -/
theorem C6_witness :
    -2 ^ 31 ≤ (-3 : Int) ∧ (-3 : Int) < 2 ^ 31 ∧
    ∃ s', CPU.execute testCPU ⟨.mov, [.register .rbx, .immediate (-3)]⟩ = some s' ∧
      s'.getReg .rbx = (if 0 ≤ (-3 : Int) then (-3 : Int).toNat
                        else (2 ^ 64 + (-3 : Int)).toNat) ∧
      (∀ r', r' ≠ Register.rbx → s'.getReg r' = testCPU.getReg r') ∧
      s'.cf = testCPU.cf ∧ s'.zf = testCPU.zf ∧ s'.sf = testCPU.sf ∧
      s'.of = testCPU.of ∧ s'.rflags = testCPU.rflags ∧
      s'.memory = testCPU.memory ∧ s'.xmm = testCPU.xmm ∧
      s'.cs = testCPU.cs ∧ s'.fs = testCPU.fs ∧ s'.gs = testCPU.gs ∧
      s'.rip = (testCPU.rip + 1) % 2 ^ 64 :=
  ⟨by norm_num, by norm_num,
   C6_mov_totality testCPU .rbx (-3) (by norm_num) (by norm_num)⟩

/-! ### C3: RFLAGS packing after flag-affecting instructions -/

theorem pack_testBit_one (a b c d : Bool) :
    (a.toNat ||| (b.toNat <<< 6) ||| (c.toNat <<< 7) |||
      (d.toNat <<< 11)).testBit 1 = false := by
  cases a <;> cases b <;> cases c <;> cases d <;> decide

/-- C3 counterexample: BSF is flag-affecting — it sets ZF when the
source register is zero — but never calls `CPU::update_flags`, so
after `bsf rax, rbx` (RBX = 0) from a fresh CPU the RFLAGS register
stays at its initial `0x0002`: bit 6 does not reflect ZF = true, and
the reserved bit 1 set at initialization is still set.  The claimed
packing therefore fails for a flag-affecting instruction. -/
theorem C3_counterexample :
    CPU.execute (CPU.new 32) ⟨.bsf, [.register .rax, .register .rbx]⟩ =
      some (bumpRip { CPU.new 32 with zf := true }) ∧
    (bumpRip { CPU.new 32 with zf := true }).zf = true ∧
    (bumpRip { CPU.new 32 with zf := true }).rflags = 2 ∧
    (bumpRip { CPU.new 32 with zf := true }).rflags ≠
      ((bumpRip { CPU.new 32 with zf := true }).cf.toNat |||
       ((bumpRip { CPU.new 32 with zf := true }).zf.toNat <<< 6) |||
       ((bumpRip { CPU.new 32 with zf := true }).sf.toNat <<< 7) |||
       ((bumpRip { CPU.new 32 with zf := true }).of.toNat <<< 11)) ∧
    (bumpRip { CPU.new 32 with zf := true }).rflags.testBit 1 = true := by
  refine ⟨by decide, by decide, by decide, by decide, by decide⟩

/-- C3 (amended): after every in-table instruction that routes through
the shared flag updater — ADD, SUB, AND, OR, XOR, INC, DEC, NEG, NOT,
SHL, SHR, ROL, ROR, CMP, TEST — RFLAGS equals exactly the packing
CF | (ZF<<6) | (SF<<7) | (OF<<11) of the boolean flag fields, all
other bits cleared — in particular bit 1, which `CPU::new` initialises
to 1, is cleared.  BSF, which also affects ZF, bypasses the updater
and leaves RFLAGS stale. -/
theorem C3_rflags_packing (s : CPU) (i : Instruction) (s' : CPU)
    (hk : i.instruction_type ∈ flagKinds)
    (ht : inTable i.instruction_type i.operands = true)
    (he : CPU.execute s i = some s') :
    s'.rflags = s'.cf.toNat ||| (s'.zf.toNat <<< 6) ||| (s'.sf.toNat <<< 7) |||
      (s'.of.toNat <<< 11) ∧ s'.rflags.testBit 1 = false := by
  obtain ⟨k, ops⟩ := i
  obtain hnone | ⟨base, r₀, o₀, hr⟩ := flagKind_route s k ops hk ht
  · rw [hnone] at he; exact absurd he (by simp)
  · rw [hr] at he
    cases he
    exact ⟨rfl, pack_testBit_one _ _ _ _⟩

/-- Witness for C3: `xor rax, rax` from the test state. -/
theorem C3_witness :
    (InstructionType.xor ∈ flagKinds) ∧
    inTable InstructionType.xor [.register .rax, .register .rax] = true ∧
    (CPU.execute testCPU ⟨.xor, [.register .rax, .register .rax]⟩ =
      some (bumpRip ((testCPU.setReg .rax 0).update_flags 0 false))) ∧
    ((bumpRip ((testCPU.setReg .rax 0).update_flags 0 false)).rflags =
      (bumpRip ((testCPU.setReg .rax 0).update_flags 0 false)).cf.toNat |||
      ((bumpRip ((testCPU.setReg .rax 0).update_flags 0 false)).zf.toNat <<< 6) |||
      ((bumpRip ((testCPU.setReg .rax 0).update_flags 0 false)).sf.toNat <<< 7) |||
      ((bumpRip ((testCPU.setReg .rax 0).update_flags 0 false)).of.toNat <<< 11) ∧
     (bumpRip ((testCPU.setReg .rax 0).update_flags 0 false)).rflags.testBit 1 = false) :=
  ⟨by decide, by decide, by decide,
   C3_rflags_packing testCPU ⟨.xor, [.register .rax, .register .rax]⟩
     (bumpRip ((testCPU.setReg .rax 0).update_flags 0 false))
     (by decide) (by decide) (by decide)⟩

/-! ### C4: conditional-jump conditions -/

/-- C4: each conditional jump with an immediate target branches exactly
when the §4.5 condition on (ZF, SF, OF) holds — the final RIP is the
sign-extended target — and is otherwise a no-op except RIP := RIP + 1.
The condition function does not consult CF, so for every state
(hence for all 16 flag combinations) CF never influences the branch. -/
theorem C4_jcc_conditions (s : CPU) (k : InstructionType) (t : Int)
    (hk : k ∈ jccKinds) (hr : s.rip + 1 < 2 ^ 64) :
    CPU.execute s ⟨k, [.immediate t]⟩ =
      some (if specBranchTaken k s.zf s.sf s.of = true
            then { s with rip := i32ToU64 t }
            else { s with rip := s.rip + 1 }) := by
  have hwrap : (i32ToU64 t + 18446744073709551615 + 1) % 18446744073709551616 =
      i32ToU64 t := by
    have := i32ToU64_lt t
    rw [two_pow_64_nat] at this
    omega
  have hmod : (s.rip + 1) % 18446744073709551616 = s.rip + 1 := by
    rw [two_pow_64_nat] at hr
    omega
  have hr2 : s.rip + 1 < 18446744073709551616 := by
    rw [two_pow_64_nat] at hr
    exact hr
  fin_cases hk
  · by_cases hc : s.zf = true <;>
      simp [CPU.execute, CPU.execute_je, CPU.execute_jmp, specBranchTaken,
            bumpRip, hc, hwrap, hmod, hr2]
  · by_cases hc : s.zf = true <;>
      simp [CPU.execute, CPU.execute_jne, CPU.execute_jmp, specBranchTaken,
            bumpRip, hc, hwrap, hmod, hr2]
  · by_cases hc : (!s.zf && (s.sf == s.of)) = true <;>
      simp [CPU.execute, CPU.execute_jg, CPU.execute_jmp, specBranchTaken,
            bumpRip, hc, hwrap, hmod, hr2]
  · by_cases hc : (s.sf == s.of) = true <;>
      simp [CPU.execute, CPU.execute_jge, CPU.execute_jmp, specBranchTaken,
            bumpRip, hc, hwrap, hmod, hr2]
  · by_cases hc : (s.sf != s.of) = true <;>
      simp [CPU.execute, CPU.execute_jl, CPU.execute_jmp, specBranchTaken,
            bumpRip, hc, hwrap, hmod, hr2]
  · by_cases hc : (s.zf || s.sf != s.of) = true <;>
      simp [CPU.execute, CPU.execute_jle, CPU.execute_jmp, specBranchTaken,
            bumpRip, hc, hwrap, hmod, hr2]

/-- Witness for C4: `je 3` from the test state (ZF clear: not taken). -/
theorem C4_witness :
    (InstructionType.je ∈ jccKinds) ∧ testCPU.rip + 1 < 2 ^ 64 ∧
    CPU.execute testCPU ⟨.je, [.immediate 3]⟩ =
      some (if specBranchTaken .je testCPU.zf testCPU.sf testCPU.of = true
            then { testCPU with rip := i32ToU64 3 }
            else { testCPU with rip := testCPU.rip + 1 }) :=
  ⟨by decide, by decide, C4_jcc_conditions testCPU .je 3 (by decide) (by decide)⟩

/-! ### C1: behaviour on out-of-table (kind, operand-shape) pairs -/

/-- C10: `ADD` given a single operand makes both `CPU::execute` and
`assemble_instruction` index `operands[1]` out of bounds — a panic
(`none`), not a reported error. -/
theorem C10_operand_oob :
    CPU.execute testCPU ⟨.add, [.register .rax]⟩ = none ∧
    assemble_instruction ⟨.add, [.register .rax]⟩ = none :=
  ⟨rfl, rfl⟩

/-! ### C9: the `xmm_register` parser accepts any u8 index -/

/-- C9 counterexample: `xmm16` parses successfully to index 16, which
is outside 0..15. -/
theorem C9_counterexample :
    xmm_register ('x' :: 'm' :: 'm' :: '1' :: '6' :: []) = some ([], 16) ∧
    ¬ ((16 : Nat) ≤ 15) := by
  refine ⟨by decide, by decide⟩

theorem takeWhile_all_append (p : Char → Bool) (ds rest : List Char)
    (h : ∀ c ∈ ds, p c = true)
    (hr : ∀ c, rest.head? = some c → p c = false) :
    (ds ++ rest).takeWhile p = ds ∧ (ds ++ rest).dropWhile p = rest := by
  induction ds with
  | nil =>
      simp only [List.nil_append]
      cases rest with
      | nil => exact ⟨rfl, rfl⟩
      | cons c t =>
          have hc := hr c rfl
          simp [List.takeWhile_cons, List.dropWhile_cons, hc]
  | cons a as ih =>
      have ha := h a (by simp)
      obtain ⟨h1, h2⟩ := ih (fun c hc => h c (by simp [hc]))
      simp [List.takeWhile_cons, List.dropWhile_cons, ha, h1, h2]

/-- C9 (amended): `xmm` followed by a digit run parses to an Xmm
operand exactly when the decimal value fits in `u8` (≤ 255); larger
values fail.  Indices 16..255 are accepted by the parser — the 0..15
restriction is enforced only later, by the encoder adapter. -/
theorem tag_self_append (t rest : List Char) : tag t (t ++ rest) = some rest := by
  unfold tag
  rw [if_pos, List.drop_left]
  rw [List.isPrefixOf_iff_prefix]
  exact List.prefix_append t rest

theorem C9_xmm_amended (ds rest : List Char)
    (hne : ds ≠ [])
    (hdig : ∀ c ∈ ds, c.isDigit = true)
    (hrest : ∀ c, rest.head? = some c → c.isDigit = false) :
    xmm_register ('x' :: 'm' :: 'm' :: (ds ++ rest)) =
      if digitsToNat ds ≤ 255 then some (rest, digitsToNat ds) else none := by
  obtain ⟨h1, h2⟩ := takeWhile_all_append Char.isDigit ds rest hdig hrest
  have htag : tag ['x', 'm', 'm'] ('x' :: 'm' :: 'm' :: (ds ++ rest)) =
      some (ds ++ rest) := tag_self_append ['x', 'm', 'm'] (ds ++ rest)
  have hdg : digit1 (ds ++ rest) = some (rest, ds) := by
    unfold digit1
    rw [h1, h2]
    cases ds with
    | nil => exact absurd rfl hne
    | cons a as => rfl
  unfold xmm_register
  simp only [htag, hdg, Option.bind_eq_bind, Option.some_bind, Option.pure_def]
  unfold parseU8
  by_cases hd : digitsToNat ds ≤ 255 <;> simp [hd]

/-- Witness for C9 (amended): `xmm256` fails to parse (256 > 255). -/
theorem C9_witness :
    (['2', '5', '6'] : List Char) ≠ [] ∧
    xmm_register ('x' :: 'm' :: 'm' :: ((['2', '5', '6'] : List Char) ++ [])) =
      (if digitsToNat ['2', '5', '6'] ≤ 255
       then some (([] : List Char), digitsToNat ['2', '5', '6']) else none) :=
  ⟨by decide,
   C9_xmm_amended ['2', '5', '6'] [] (by decide) (by decide) (by decide)⟩

/-! ### C5: CALL/RET round-trip -/

theorem natToLeBytes8_length (v : Nat) : (natToLeBytes8 v).length = 8 := rfl

theorem leBytes_roundtrip (v : Nat) (h : v < 2 ^ 64) :
    leBytesToNat (natToLeBytes8 v) = v := by
  unfold leBytesToNat natToLeBytes8
  simp only [List.foldr_cons, List.foldr_nil]
  rw [two_pow_64_nat] at h
  norm_num
  omega

/-- C5: from any state with RSP in range, `CALL t` pushes the
return address RIP+1 as 8 little-endian bytes at the decremented RSP
and jumps to the sign-extended target; the `RET` executed next restores
RSP and leaves RIP at the pre-CALL RIP + 1. -/
theorem C5_call_ret_roundtrip (s : CPU) (t : Int)
    (h8 : 8 ≤ s.rsp) (hlen : s.rsp ≤ s.memory.length)
    (hrsp : s.rsp < 2 ^ 64) (hrip : s.rip + 1 < 2 ^ 64) :
    ∃ s₁ s₂,
      CPU.execute s ⟨.call, [.immediate t]⟩ = some s₁ ∧
      CPU.execute s₁ ⟨.ret, []⟩ = some s₂ ∧
      s₁.rip = i32ToU64 t ∧
      s₁.rsp = s.rsp - 8 ∧
      (s₁.memory.drop (s.rsp - 8)).take 8 = natToLeBytes8 (s.rip + 1) ∧
      s₂.rip = s.rip + 1 ∧ s₂.rsp = s.rsp := by
  have e64 := two_pow_64_nat
  rw [e64] at hrsp hrip
  have hw : (s.rsp + 18446744073709551608) % 18446744073709551616 = s.rsp - 8 := by
    omega
  have hwrap : (i32ToU64 t + 18446744073709551615 + 1) % 18446744073709551616 =
      i32ToU64 t := by
    have := i32ToU64_lt t
    rw [e64] at this
    omega
  have hmod1 : (s.rip + 1) % 18446744073709551616 = s.rip + 1 := by omega
  have hmod1' : (s.rip + 1) % 2 ^ 64 = s.rip + 1 := by rw [e64]; omega
  have hcond : (s.rsp - 8) + 8 ≤ s.memory.length := by omega
  have hr3 : (s.rip + 1 + 18446744073709551615) % 18446744073709551616 = s.rip := by
    omega
  have hr4 : (s.rsp - 8 + 8) % 18446744073709551616 = s.rsp := by omega
  have hcall : CPU.execute s ⟨.call, [.immediate t]⟩ = some
      { s with rsp := s.rsp - 8,
               memory := s.memory.take (s.rsp - 8) ++ natToLeBytes8 (s.rip + 1) ++
                         s.memory.drop (s.rsp - 8 + 8),
               rip := i32ToU64 t } := by
    simp [CPU.execute, CPU.execute_call, CPU.write_memory, CPU.execute_jmp,
          bumpRip, hw, hwrap, hmod1, hmod1', hcond]
  have hplen : (s.memory.take (s.rsp - 8)).length = s.rsp - 8 := by
    simp [List.length_take]
    omega
  have hread :
      ((s.memory.take (s.rsp - 8) ++ natToLeBytes8 (s.rip + 1) ++
        s.memory.drop (s.rsp - 8 + 8)).drop (s.rsp - 8)).take 8 =
      natToLeBytes8 (s.rip + 1) := by
    rw [List.append_assoc, List.drop_left' hplen,
        List.take_left' (natToLeBytes8_length (s.rip + 1))]
  have hlen1 : (s.memory.take (s.rsp - 8) ++ natToLeBytes8 (s.rip + 1) ++
      s.memory.drop (s.rsp - 8 + 8)).length = s.memory.length := by
    simp [List.length_take, List.length_drop, natToLeBytes8]
    omega
  have hret : CPU.execute
      { s with rsp := s.rsp - 8,
               memory := s.memory.take (s.rsp - 8) ++ natToLeBytes8 (s.rip + 1) ++
                         s.memory.drop (s.rsp - 8 + 8),
               rip := i32ToU64 t } ⟨.ret, []⟩ = some
      { s with rsp := s.rsp,
               memory := s.memory.take (s.rsp - 8) ++ natToLeBytes8 (s.rip + 1) ++
                         s.memory.drop (s.rsp - 8 + 8),
               rip := s.rip + 1 } := by
    have hcond2 : (s.rsp - 8) + 8 ≤ (s.memory.take (s.rsp - 8) ++
        natToLeBytes8 (s.rip + 1) ++ s.memory.drop (s.rsp - 8 + 8)).length := by
      rw [hlen1]; exact hcond
    have hplen8 := natToLeBytes8_length (s.rip + 1)
    have hread' : ((s.memory.take (s.rsp - 8) ++ (natToLeBytes8 (s.rip + 1) ++
        s.memory.drop (s.rsp - 8 + 8))).drop (s.rsp - 8)).take 8 =
        natToLeBytes8 (s.rip + 1) := by
      rw [List.drop_left' hplen, List.take_left' hplen8]
    have hcond2' : (s.rsp - 8) + 8 ≤ (s.memory.take (s.rsp - 8) ++
        (natToLeBytes8 (s.rip + 1) ++ s.memory.drop (s.rsp - 8 + 8))).length := by
      rw [← List.append_assoc, hlen1]; exact hcond
    have hrm : CPU.read_memory
        { s with rsp := s.rsp - 8,
                 memory := s.memory.take (s.rsp - 8) ++ (natToLeBytes8 (s.rip + 1) ++
                           s.memory.drop (s.rsp - 8 + 8)),
                 rip := i32ToU64 t } (s.rsp - 8) = some (s.rip + 1) := by
      unfold CPU.read_memory
      dsimp only
      rw [if_pos hcond2', hread', leBytes_roundtrip (s.rip + 1) (by rw [e64]; exact hrip)]
    simp [CPU.execute, CPU.execute_ret, bumpRip, hrm, hr3, hr4, hmod1, hmod1']
  exact ⟨_, _, hcall, hret, rfl, rfl, hread, rfl, rfl⟩

/-- Witness for C5: `call 3` then `ret` from the test state. -/
theorem C5_witness :
    8 ≤ testCPU.rsp ∧ testCPU.rsp ≤ testCPU.memory.length ∧
    testCPU.rsp < 2 ^ 64 ∧ testCPU.rip + 1 < 2 ^ 64 ∧
    (∃ s₁ s₂,
      CPU.execute testCPU ⟨.call, [.immediate 3]⟩ = some s₁ ∧
      CPU.execute s₁ ⟨.ret, []⟩ = some s₂ ∧
      s₁.rip = i32ToU64 3 ∧
      s₁.rsp = testCPU.rsp - 8 ∧
      (s₁.memory.drop (testCPU.rsp - 8)).take 8 = natToLeBytes8 (testCPU.rip + 1) ∧
      s₂.rip = testCPU.rip + 1 ∧ s₂.rsp = testCPU.rsp) :=
  ⟨by decide, by decide, by decide, by decide,
   C5_call_ret_roundtrip testCPU 3 (by decide) (by decide) (by decide) (by decide)⟩

/-! ### C7: BSF -/

theorem and_one_shl_eq_zero_iff (v i : Nat) :
    (v &&& (1 <<< i) = 0) ↔ v.testBit i = false := by
  rw [Nat.one_shiftLeft]
  constructor
  · intro h
    have h2 := congrArg (fun x => x.testBit i) h
    simpa [Nat.testBit_and, Nat.testBit_two_pow_self] using h2
  · intro h
    apply Nat.eq_of_testBit_eq
    intro j
    rw [Nat.testBit_and, Nat.zero_testBit]
    rcases eq_or_ne i j with rfl | hij
    · simp [h]
    · simp [Nat.testBit_two_pow_of_ne hij]

/-- The `while` loop of `CPU::execute_bsf` finds the least set bit:
if all bits below `index` are clear and a set bit exists within the
fuel window, the loop returns the least set-bit index. -/
theorem bsfLoop_correct (v : Nat) : ∀ (fuel index : Nat),
    (∀ j, j < index → v.testBit j = false) →
    (∃ k, index ≤ k ∧ k < index + fuel ∧ v.testBit k = true) →
    ∃ r, bsfLoop v fuel index = some r ∧ v.testBit r = true ∧
      ∀ j, j < r → v.testBit j = false := by
  intro fuel
  induction fuel with
  | zero =>
      intro index hlow hex
      obtain ⟨k, hk1, hk2, _⟩ := hex
      omega
  | succ n ih =>
      intro index hlow hex
      by_cases hb : v.testBit index = true
      · refine ⟨index, ?_, hb, hlow⟩
        unfold bsfLoop
        rw [if_neg]
        intro hand
        rw [and_one_shl_eq_zero_iff] at hand
        simp [hb] at hand
      · have hb' : v.testBit index = false := by
          cases hbe : v.testBit index
          · rfl
          · exact absurd hbe hb
        have hand : v &&& (1 <<< index) = 0 := (and_one_shl_eq_zero_iff v index).mpr hb'
        obtain ⟨k, hk1, hk2, hk3⟩ := hex
        have hkne : k ≠ index := by
          intro he
          rw [he, hb'] at hk3
          exact Bool.false_ne_true hk3
        obtain ⟨r, hr1, hr2, hr3⟩ := ih (index + 1)
          (fun j hj => by
            rcases Nat.lt_succ_iff_lt_or_eq.mp hj with h | h
            · exact hlow j h
            · rw [h]; exact hb')
          ⟨k, by omega, by omega, hk3⟩
        refine ⟨r, ?_, hr2, hr3⟩
        unfold bsfLoop
        rw [if_pos hand]
        exact hr1

/-- C7: `BSF d, src` with a nonzero source writes the index of the
least-significant set bit of the source into GPR[d] and clears ZF;
with a zero source it sets ZF and leaves GPR[d] unchanged; in both
cases CF, SF, OF and RFLAGS are not modified. -/
theorem C7_bsf (s : CPU) (d src : Register) (hv : s.getReg src < 2 ^ 64) :
    (s.getReg src ≠ 0 →
      ∃ s', CPU.execute s ⟨.bsf, [.register d, .register src]⟩ = some s' ∧
        s'.zf = false ∧
        (s.getReg src).testBit (s'.getReg d) = true ∧
        (∀ j, j < s'.getReg d → (s.getReg src).testBit j = false) ∧
        s'.cf = s.cf ∧ s'.sf = s.sf ∧ s'.of = s.of ∧ s'.rflags = s.rflags) ∧
    (s.getReg src = 0 →
      ∃ s', CPU.execute s ⟨.bsf, [.register d, .register src]⟩ = some s' ∧
        s'.zf = true ∧ s'.getReg d = s.getReg d ∧
        s'.cf = s.cf ∧ s'.sf = s.sf ∧ s'.of = s.of ∧ s'.rflags = s.rflags) := by
  constructor
  · intro hnz
    obtain ⟨i, hbit⟩ := Nat.ne_zero_implies_bit_true hnz
    have hi : i < 64 := by
      by_contra hge
      push_neg at hge
      have hle := Nat.testBit_implies_ge hbit
      have h2 : (2 : Nat) ^ 64 ≤ 2 ^ i := Nat.pow_le_pow_right (by norm_num) hge
      omega
    obtain ⟨r, hr1, hr2, hr3⟩ := bsfLoop_correct (s.getReg src) 64 0
      (fun j hj => absurd hj (Nat.not_lt_zero j))
      ⟨i, Nat.zero_le i, by omega, hbit⟩
    obtain ⟨_, hrfl, _, _, _, hcf, hzf, hsf, hof, _, _⟩ :=
      setReg_frame { s with zf := false } d r
    refine ⟨bumpRip (({ s with zf := false } : CPU).setReg d r),
            ?_, ?_, ?_, ?_, ?_, ?_, ?_, ?_⟩
    · simp [CPU.execute, CPU.execute_bsf, hnz, hr1]
    · show (({ s with zf := false } : CPU).setReg d r).zf = false
      rw [hzf]
    · rw [bumpRip_getReg, getReg_setReg_self]; exact hr2
    · rw [bumpRip_getReg, getReg_setReg_self]; exact hr3
    · show (({ s with zf := false } : CPU).setReg d r).cf = s.cf
      rw [hcf]
    · show (({ s with zf := false } : CPU).setReg d r).sf = s.sf
      rw [hsf]
    · show (({ s with zf := false } : CPU).setReg d r).of = s.of
      rw [hof]
    · show (({ s with zf := false } : CPU).setReg d r).rflags = s.rflags
      rw [hrfl]
  · intro hz
    refine ⟨bumpRip { s with zf := true }, ?_, rfl, ?_, rfl, rfl, rfl, rfl⟩
    · simp [CPU.execute, CPU.execute_bsf, hz]
    · rw [bumpRip_getReg, getReg_setZf]

/-- Witness for C7: `bsf rbx, rdx` with RDX = 8 finds bit 3. -/
theorem C7_witness :
    ({ testCPU with rdx := 8 } : CPU).getReg .rdx < 2 ^ 64 ∧
    ({ testCPU with rdx := 8 } : CPU).getReg .rdx ≠ 0 ∧
    (∃ s', CPU.execute { testCPU with rdx := 8 }
        ⟨.bsf, [.register .rbx, .register .rdx]⟩ = some s' ∧
      s'.zf = false ∧
      (({ testCPU with rdx := 8 } : CPU).getReg .rdx).testBit (s'.getReg .rbx) = true ∧
      (∀ j, j < s'.getReg .rbx →
        (({ testCPU with rdx := 8 } : CPU).getReg .rdx).testBit j = false) ∧
      s'.cf = ({ testCPU with rdx := 8 } : CPU).cf ∧
      s'.sf = ({ testCPU with rdx := 8 } : CPU).sf ∧
      s'.of = ({ testCPU with rdx := 8 } : CPU).of ∧
      s'.rflags = ({ testCPU with rdx := 8 } : CPU).rflags) :=
  ⟨by decide, by decide,
   (C7_bsf { testCPU with rdx := 8 } .rbx .rdx (by decide)).1 (by decide)⟩

/-! ### C8: PADDD lanes -/

theorem mask32_eq : (0xFFFFFFFF : Nat) = 2 ^ 32 - 1 := by norm_num

theorem and_mask32 (x : Nat) : x &&& 0xFFFFFFFF = x % 2 ^ 32 := by
  rw [mask32_eq]
  exact Nat.and_pow_two_sub_one_eq_mod x 32

theorem or_add_shl (x y n : Nat) (hx : x < 2 ^ n) :
    x ||| y <<< n = 2 ^ n * y + x := by
  rw [Nat.shiftLeft_eq, Nat.or_comm, mul_comm y (2 ^ n)]
  exact (Nat.mul_add_lt_is_or hx y).symm

theorem or4_eq_sum (m0 m1 m2 m3 : Nat) (h0 : m0 < 2 ^ 32) (h1 : m1 < 2 ^ 32)
    (h2 : m2 < 2 ^ 32) (h3 : m3 < 2 ^ 32) :
    m0 ||| m1 <<< 32 ||| m2 <<< 64 ||| m3 <<< 96 =
      m0 + 2 ^ 32 * m1 + 2 ^ 64 * m2 + 2 ^ 96 * m3 := by
  have e32 : (2 : Nat) ^ 32 = 4294967296 := by norm_num
  have e64 : (2 : Nat) ^ 64 = 18446744073709551616 := by norm_num
  have e96 : (2 : Nat) ^ 96 = 79228162514264337593543950336 := by norm_num
  have hA1 : m0 ||| m1 <<< 32 = 2 ^ 32 * m1 + m0 := or_add_shl m0 m1 32 h0
  have hA1lt : 2 ^ 32 * m1 + m0 < 2 ^ 64 := by rw [e32, e64]; rw [e32] at h0 h1; omega
  have hA2 : m0 ||| m1 <<< 32 ||| m2 <<< 64 = 2 ^ 64 * m2 + (2 ^ 32 * m1 + m0) := by
    rw [hA1]; exact or_add_shl _ m2 64 hA1lt
  have hA2lt : 2 ^ 64 * m2 + (2 ^ 32 * m1 + m0) < 2 ^ 96 := by
    rw [e32, e64, e96]; rw [e32] at h0 h1 h2; omega
  have hA3 : m0 ||| m1 <<< 32 ||| m2 <<< 64 ||| m3 <<< 96 =
      2 ^ 96 * m3 + (2 ^ 64 * m2 + (2 ^ 32 * m1 + m0)) := by
    rw [hA2]; exact or_add_shl _ m3 96 hA2lt
  rw [hA3]
  omega

theorem lane32_of_sum (m0 m1 m2 m3 k : Nat) (h0 : m0 < 2 ^ 32) (h1 : m1 < 2 ^ 32)
    (h2 : m2 < 2 ^ 32) (h3 : m3 < 2 ^ 32) (hk : k < 4) :
    lane32 (m0 + 2 ^ 32 * m1 + 2 ^ 64 * m2 + 2 ^ 96 * m3) k =
      [m0, m1, m2, m3].getD k 0 := by
  unfold lane32
  rw [Nat.shiftRight_eq_div_pow, mask32_eq, Nat.and_pow_two_sub_one_eq_mod]
  have e32 : (2 : Nat) ^ 32 = 4294967296 := by norm_num
  have e64 : (2 : Nat) ^ 64 = 18446744073709551616 := by norm_num
  have e96 : (2 : Nat) ^ 96 = 79228162514264337593543950336 := by norm_num
  rw [e32] at h0 h1 h2 h3
  interval_cases k <;> simp [List.getD] <;> omega

/-- The lane decomposition of the fold in `CPU::execute_paddd`:
the k-th 32-bit lane of the combined result is the wrapping 32-bit sum
of the k-th lanes of the inputs. -/
theorem paddd128_lane (a b k : Nat) (hk : k < 4) :
    lane32 (paddd128 a b) k = (lane32 a k + lane32 b k) % 2 ^ 32 := by
  have hexp : paddd128 a b =
      (((0 |||
        ((((a >>> 0) &&& 0xFFFFFFFF) + ((b >>> 0) &&& 0xFFFFFFFF)) &&& 0xFFFFFFFF) <<< 0) |||
        ((((a >>> 32) &&& 0xFFFFFFFF) + ((b >>> 32) &&& 0xFFFFFFFF)) &&& 0xFFFFFFFF) <<< 32) |||
        ((((a >>> 64) &&& 0xFFFFFFFF) + ((b >>> 64) &&& 0xFFFFFFFF)) &&& 0xFFFFFFFF) <<< 64) |||
        ((((a >>> 96) &&& 0xFFFFFFFF) + ((b >>> 96) &&& 0xFFFFFFFF)) &&& 0xFFFFFFFF) <<< 96 := rfl
  have hlt : (0xFFFFFFFF : Nat) < 2 ^ 32 := by norm_num
  have hb0 := Nat.and_lt_two_pow (((a >>> 0) &&& 0xFFFFFFFF) + ((b >>> 0) &&& 0xFFFFFFFF)) hlt
  have hb1 := Nat.and_lt_two_pow (((a >>> 32) &&& 0xFFFFFFFF) + ((b >>> 32) &&& 0xFFFFFFFF)) hlt
  have hb2 := Nat.and_lt_two_pow (((a >>> 64) &&& 0xFFFFFFFF) + ((b >>> 64) &&& 0xFFFFFFFF)) hlt
  have hb3 := Nat.and_lt_two_pow (((a >>> 96) &&& 0xFFFFFFFF) + ((b >>> 96) &&& 0xFFFFFFFF)) hlt
  rw [hexp, Nat.zero_or, Nat.shiftLeft_zero]
  rw [or4_eq_sum _ _ _ _ hb0 hb1 hb2 hb3]
  rw [lane32_of_sum _ _ _ _ _ hb0 hb1 hb2 hb3 hk]
  interval_cases k <;> simp [List.getD, lane32, and_mask32]

/-- C8 counterexample: `paddd xmm0, xmm0` from a state with XMM0 = 1
doubles lane 0 of XMM0 — so with d = s the claimed "xmm[s] is
unchanged" fails. -/
theorem C8_counterexample :
    CPU.execute testCPU ⟨.paddd, [.xmmRegister 0, .xmmRegister 0]⟩ =
      some (bumpRip { testCPU with xmm := testCPU.xmm.set 0 2 }) ∧
    (bumpRip { testCPU with xmm := testCPU.xmm.set 0 2 }).xmm.getD 0 0 ≠
      testCPU.xmm.getD 0 0 := by
  refine ⟨by decide, by decide⟩

/-- C8 (amended): `PADDD xmm_d, xmm_s` sets each 32-bit lane k of
xmm[d] to `(a_k + b_k) mod 2^32`; xmm[s] is unchanged provided
`s ≠ d`; the flags and RFLAGS are unchanged. -/
theorem C8_paddd_amended (s : CPU) (d srcI a b : Nat)
    (ha : s.xmm[d]? = some a) (hb : s.xmm[srcI]? = some b) :
    ∃ s', CPU.execute s ⟨.paddd, [.xmmRegister d, .xmmRegister srcI]⟩ = some s' ∧
      (∀ k, k < 4 → lane32 (s'.xmm.getD d 0) k = (lane32 a k + lane32 b k) % 2 ^ 32) ∧
      (d ≠ srcI → s'.xmm[srcI]? = some b) ∧
      s'.cf = s.cf ∧ s'.zf = s.zf ∧ s'.sf = s.sf ∧ s'.of = s.of ∧
      s'.rflags = s.rflags := by
  have hd : d < s.xmm.length := by
    by_contra hge
    push_neg at hge
    rw [List.getElem?_eq_none hge] at ha
    cases ha
  refine ⟨bumpRip { s with xmm := s.xmm.set d (paddd128 a b) },
          ?_, ?_, ?_, rfl, rfl, rfl, rfl, rfl⟩
  · simp [CPU.execute, CPU.execute_paddd, ha, hb]
  · intro k hk
    show lane32 ((s.xmm.set d (paddd128 a b)).getD d 0) k =
      (lane32 a k + lane32 b k) % 2 ^ 32
    rw [List.getD_eq_getElem?_getD, List.getElem?_set_self hd, Option.getD_some]
    exact paddd128_lane a b k hk
  · intro hne
    show (s.xmm.set d (paddd128 a b))[srcI]? = some b
    rw [List.getElem?_set_ne hne]
    exact hb

/-- Concrete state for the C8 witness: XMM1 = 5, XMM2 = 7. -/
def paddTestCPU : CPU :=
  { testCPU with xmm := ((List.replicate 16 0).set 1 5).set 2 7 }

/-- Witness for C8 (amended): `paddd xmm1, xmm2`. -/
theorem C8_witness :
    paddTestCPU.xmm[1]? = some 5 ∧ paddTestCPU.xmm[2]? = some 7 ∧
    (∃ s', CPU.execute paddTestCPU ⟨.paddd, [.xmmRegister 1, .xmmRegister 2]⟩ =
        some s' ∧
      (∀ k, k < 4 → lane32 (s'.xmm.getD 1 0) k = (lane32 5 k + lane32 7 k) % 2 ^ 32) ∧
      ((1 : Nat) ≠ 2 → s'.xmm[2]? = some 7) ∧
      s'.cf = paddTestCPU.cf ∧ s'.zf = paddTestCPU.zf ∧ s'.sf = paddTestCPU.sf ∧
      s'.of = paddTestCPU.of ∧ s'.rflags = paddTestCPU.rflags) :=
  ⟨by decide, by decide,
   C8_paddd_amended paddTestCPU 1 2 5 7 (by decide) (by decide)⟩

end ASMLab
